import Mathlib

/-!
Verification of the ACME certificate-issuance core of the `salvo` web framework:
the issuance orchestrator (`issue_cert` in `core/src/listener/acme/issuer.rs`),
and the filesystem certificate cache (`core/src/listener/acme/cache.rs`).

The Rust code is shallowly embedded: bytes are `List Nat` (each < 256),
machine words are `Nat` reduced mod 2^32, the filesystem is a function from
paths to read outcomes, and the ACME client together with the external crypto
libraries (`ring`, `rcgen`, `rustls-pemfile`) is an explicit environment of
functions threaded through an explicit world state.  `issue_cert` itself is a
direct transcription of the Rust control flow, instrumented with an event
trace recording the externally visible actions (authorization fetches,
challenge-map inserts, `trigger_challenge` calls, backoff sleeps, certificate
installation, cache writes) in the order the code performs them.
-/

set_option maxRecDepth 4000

/-! ## Bytes and UTF-8 -/

/-- UTF-8 encoding of one character, as bytes (mirrors Rust `str` bytes). -/
def charUtf8 (c : Char) : List Nat :=
  let n := c.toNat
  if n < 128 then [n]
  else if n < 2048 then [192 + n / 64, 128 + n % 64]
  else if n < 65536 then [224 + n / 4096, 128 + n / 64 % 64, 128 + n % 64]
  else [240 + n / 262144, 128 + n / 4096 % 64, 128 + n / 64 % 64, 128 + n % 64]

/-- The bytes of a Rust `&str` (UTF-8). -/
def strBytes (s : String) : List Nat :=
  s.data.foldr (fun c acc => charUtf8 c ++ acc) []

/-! ## SHA-256 (`ring::digest::SHA256`), executable over byte lists -/

/-- Reduce to a 32-bit word. -/
def m32 (x : Nat) : Nat := x % 4294967296

/-- 32-bit right rotation. -/
def rotr (n x : Nat) : Nat := m32 (x / 2 ^ n + x % 2 ^ n * 2 ^ (32 - n))

/-- SHA-256 `Ch` function. -/
def shaCh (e f g : Nat) : Nat := Nat.xor (Nat.land e f) (Nat.land (4294967295 - e) g)

/-- SHA-256 `Maj` function. -/
def shaMaj (a b c : Nat) : Nat :=
  Nat.xor (Nat.land a b) (Nat.xor (Nat.land a c) (Nat.land b c))

/-- SHA-256 Σ₀. -/
def bigSigma0 (x : Nat) : Nat := Nat.xor (rotr 2 x) (Nat.xor (rotr 13 x) (rotr 22 x))

/-- SHA-256 Σ₁. -/
def bigSigma1 (x : Nat) : Nat := Nat.xor (rotr 6 x) (Nat.xor (rotr 11 x) (rotr 25 x))

/-- SHA-256 σ₀. -/
def smallSigma0 (x : Nat) : Nat := Nat.xor (rotr 7 x) (Nat.xor (rotr 18 x) (x / 2 ^ 3))

/-- SHA-256 σ₁. -/
def smallSigma1 (x : Nat) : Nat := Nat.xor (rotr 17 x) (Nat.xor (rotr 19 x) (x / 2 ^ 10))

/-- The 64 SHA-256 round constants. -/
def shaK : List Nat :=
  [1116352408, 1899447441, 3049323471, 3921009573, 961987163,
   1508970993, 2453635748, 2870763221, 3624381080, 310598401,
   607225278, 1426881987, 1925078388, 2162078206, 2614888103,
   3248222580, 3835390401, 4022224774, 264347078, 604807628,
   770255983, 1249150122, 1555081692, 1996064986, 2554220882,
   2821834349, 2952996808, 3210313671, 3336571891, 3584528711,
   113926993, 338241895, 666307205, 773529912, 1294757372,
   1396182291, 1695183700, 1986661051, 2177026350, 2456956037,
   2730485921, 2820302411, 3259730800, 3345764771, 3516065817,
   3600352804, 4094571909, 275423344, 430227734, 506948616,
   659060556, 883997877, 958139571, 1322822218, 1537002063,
   1747873779, 1955562222, 2024104815, 2227730452, 2361852424,
   2428436474, 2756734187, 3204031479, 3329325298]

/-- The SHA-256 initial hash value. -/
def shaH0 : List Nat :=
  [1779033703, 3144134277, 1013904242,
   2773480762, 1359893119, 2600822924,
   528734635, 1541459225]

/-- A `Nat` as 8 big-endian bytes. -/
def be64 (n : Nat) : List Nat :=
  [n / 2 ^ 56 % 256, n / 2 ^ 48 % 256, n / 2 ^ 40 % 256, n / 2 ^ 32 % 256,
   n / 2 ^ 24 % 256, n / 2 ^ 16 % 256, n / 2 ^ 8 % 256, n % 256]

/-- SHA-256 padding: append `0x80`, zeros to 56 mod 64, and the bit length. -/
def padMessage (m : List Nat) : List Nat :=
  m ++ 128 :: List.replicate ((119 - m.length % 64) % 64) 0 ++ be64 (8 * m.length)

/-- Big-endian 32-bit words of a byte list (trailing incomplete group dropped;
the padded message length is always a multiple of 4). -/
def toWords : List Nat → List Nat
  | a :: b :: c :: d :: rest => (a * 16777216 + b * 65536 + c * 256 + d) :: toWords rest
  | _ => []

/-- Extend a 16-word block by `fuel` schedule words. -/
def extendSchedule : List Nat → Nat → List Nat
  | ws, 0 => ws
  | ws, n + 1 =>
    let t := ws.length
    let w := m32 (smallSigma1 (ws.getD (t - 2) 0) + ws.getD (t - 7) 0 +
      smallSigma0 (ws.getD (t - 15) 0) + ws.getD (t - 16) 0)
    extendSchedule (ws ++ [w]) n

/-- One SHA-256 compression round; the state is the 8 working variables. -/
def compressStep (st : List Nat) (wk : Nat × Nat) : List Nat :=
  match st with
  | [a, b, c, d, e, f, g, h] =>
    let t1 := m32 (h + bigSigma1 e + shaCh e f g + wk.2 + wk.1)
    let t2 := m32 (bigSigma0 a + shaMaj a b c)
    [m32 (t1 + t2), a, b, c, m32 (d + t1), e, f, g]
  | other => other

/-- Process one 16-word block against the running hash. -/
def processBlock (h : List Nat) (block : List Nat) : List Nat :=
  let ws := extendSchedule block 48
  let st := (ws.zip shaK).foldl compressStep h
  (h.zip st).map (fun p => m32 (p.1 + p.2))

/-- Split a word list into 16-word blocks (fuel-driven, structurally
recursive so the kernel can evaluate it). -/
def chunk16 : Nat → List Nat → List (List Nat)
  | 0, _ => []
  | _, [] => []
  | fuel + 1, ws => ws.take 16 :: chunk16 fuel (ws.drop 16)

/-- SHA-256 of a byte list, as 32 digest bytes. -/
def sha256 (m : List Nat) : List Nat :=
  let ws := toWords (padMessage m)
  let h := (chunk16 ws.length ws).foldl processBlock shaH0
  h.foldr (fun w acc => w / 16777216 % 256 :: w / 65536 % 256 :: w / 256 % 256 :: w % 256 :: acc) []

/-! ## URL-safe base64, no padding (`base64::URL_SAFE_NO_PAD`) -/

/-- The URL-safe base64 alphabet. -/
def b64Alphabet : List Char :=
  "ABCDEFGHIJKLMNOPQRSTUVWXYZabcdefghijklmnopqrstuvwxyz0123456789-_".data

/-- The alphabet character for a 6-bit value. -/
def b64Char (n : Nat) : Char := b64Alphabet.getD n 'A'

/-- Unpadded URL-safe base64 encoding of a byte list. -/
def base64urlNoPad : List Nat → List Char
  | a :: b :: c :: rest =>
    b64Char (a / 4) :: b64Char (a % 4 * 16 + b / 16) :: b64Char (b % 16 * 4 + c / 64) ::
      b64Char (c % 64) :: base64urlNoPad rest
  | [a, b] => [b64Char (a / 4), b64Char (a % 4 * 16 + b / 16), b64Char (b % 16 * 4)]
  | [a] => [b64Char (a / 4), b64Char (a % 4 * 16)]
  | [] => []

/-! ## Cache file naming (`cache.rs`) -/

/-- `file_hash_part` from `cache.rs`: a `ring` SHA-256 context updated with
each domain's bytes followed by a `0` byte, finished and base64url-encoded
without padding.  The context is modelled as the accumulated input bytes. -/
def file_hash_part (data : List String) : String :=
  String.mk (base64urlNoPad (sha256 (data.foldl (fun ctx el => ctx ++ strBytes el ++ [0]) [])))

/-- The cache file name used by `read_pkey`/`write_pkey`:
`format!("{}{}-{}", PKEY_PEM_PREFIX, directory_name, file_hash_part(domains))`
with the static `PKEY_PEM_PREFIX = "pkey-"` inlined. -/
def pkeyFileName (directory_name : String) (domains : List String) : String :=
  "pkey-" ++ directory_name ++ "-" ++ file_hash_part domains

/-- The cache file name used by `read_cert`/`write_cert`, with the static
`CERT_PEM_PREFIX = "cert-"` inlined. -/
def certFileName (directory_name : String) (domains : List String) : String :=
  "cert-" ++ directory_name ++ "-" ++ file_hash_part domains

/-- The spec's CacheKey formula, written from the spec's words:
`prefix + directory_name + "-" + base64url(SHA-256(domain₀ ‖ 0x00 ‖ domain₁ ‖ 0x00 ‖ …))`. -/
def cacheKeySpec (pfx directory_name : String) (domains : List String) : String :=
  pfx ++ directory_name ++ "-" ++
    String.mk (base64urlNoPad (sha256 (List.flatten (domains.map (fun d => strBytes d ++ [0])))))

/-! ## Filesystem cache operations (`cache.rs`, `impl AcmeCache for P: AsRef<Path>`)

The filesystem is modelled as a function from paths to read outcomes: a path
maps either to the bytes `tokio::fs::read` would return, or to the
`std::io::ErrorKind` of the failure.  `ErrorKind::NotFound` is the outcome for
every path that was never written (this also covers a missing cache root
directory, where the file read fails with `NotFound` as well). -/

/-- A `std::io::ErrorKind`, as far as the cache logic inspects it. -/
inductive FsErrorKind where
  | notFound
  | other (kind : String)
deriving DecidableEq

/-- The filesystem: what `tokio::fs::read` returns at each path. -/
def FsModel : Type := String → Except FsErrorKind (List Nat)

/-- The path `{root}/{name}` built by `PathBuf::push`. -/
def cachePath (root name : String) : String := root ++ "/" ++ name

/-- `write_data` from `cache.rs`: open with `create(true).truncate(true)` and
write the full record, so the path now reads back exactly `data`.  A
successful write is modelled; failure injection is not needed by any claim
about writes. -/
def write_data (fs : FsModel) (file_path : String) (data : List Nat) : FsModel :=
  fun p => if p = file_path then Except.ok data else fs p

/-- The error-handling match of `read_pkey` in `cache.rs`, applied to the
outcome of `tokio::fs::read`: `Ok(data) => Ok(Some(data))`,
`NotFound => Ok(None)`, any other error kind is returned as the error. -/
def readMatchPkey (r : Except FsErrorKind (List Nat)) : Except FsErrorKind (Option (List Nat)) :=
  match r with
  | Except.ok data => Except.ok (some data)
  | Except.error err =>
    match err with
    | FsErrorKind.notFound => Except.ok none
    | e => Except.error e

/-- The identical error-handling match of `read_cert` in `cache.rs`. -/
def readMatchCert (r : Except FsErrorKind (List Nat)) : Except FsErrorKind (Option (List Nat)) :=
  match r with
  | Except.ok data => Except.ok (some data)
  | Except.error err =>
    match err with
    | FsErrorKind.notFound => Except.ok none
    | e => Except.error e

/-- `read_pkey` from `cache.rs`: read `{root}/pkey-{dir}-{hash}`. -/
def read_pkey (fs : FsModel) (root directory_name : String) (domains : List String) :
    Except FsErrorKind (Option (List Nat)) :=
  readMatchPkey (fs (cachePath root (pkeyFileName directory_name domains)))

/-- `write_pkey` from `cache.rs`: `create_dir_all(root)` (pure no-op in this
model, where a missing directory only manifests as `NotFound` on read) then
truncate-and-write the record. -/
def write_pkey (fs : FsModel) (root directory_name : String) (domains : List String)
    (data : List Nat) : FsModel :=
  write_data fs (cachePath root (pkeyFileName directory_name domains)) data

/-- `read_cert` from `cache.rs`: read `{root}/cert-{dir}-{hash}`. -/
def read_cert (fs : FsModel) (root directory_name : String) (domains : List String) :
    Except FsErrorKind (Option (List Nat)) :=
  readMatchCert (fs (cachePath root (certFileName directory_name domains)))

/-- `write_cert` from `cache.rs`. -/
def write_cert (fs : FsModel) (root directory_name : String) (domains : List String)
    (data : List Nat) : FsModel :=
  write_data fs (cachePath root (certFileName directory_name domains)) data

/-! ## The issuance orchestrator (`issuer.rs`)

`issue_cert(client, config, resolver)` is embedded as a function over an
explicit environment (the `AcmeClient` plus the external crypto libraries),
an explicit run state (the `client`/world state `W`, the resolver's slots,
the HTTP-01 key map, and an event trace), returning the Rust `IoResult<()>`
(errors as their message strings) together with the final state. -/

/-- `ChallengeType` from the acme module. -/
inductive ChallengeType where
  | http01
  | tlsAlpn01
deriving DecidableEq

/-- One entry of an authorization's `challenges` list. -/
structure AcmeChallenge where
  ty : ChallengeType
  token : String
  url : String
deriving DecidableEq

/-- An RFC-7807 problem document, as far as `issue_cert` reads it. -/
structure AcmeProblem where
  detail : String
deriving DecidableEq

/-- `fetch_authorization`'s response: status, identifier value, candidate
challenges and optional problem document. -/
structure AcmeAuthorization where
  status : String
  identifierValue : String
  challenges : List AcmeChallenge
  error : Option AcmeProblem
deriving DecidableEq

/-- `new_order`'s response: the authorization URLs and the finalize URL. -/
structure NewOrderRes where
  authorizations : List String
  finalize : String
deriving DecidableEq

/-- `send_csr`'s response: order status, optional certificate URL, optional
problem document. -/
structure CsrRes where
  status : String
  certificate : Option String
  error : Option AcmeProblem
deriving DecidableEq

/-- Modelled from the spec (`client.rs` is not part of the provided sources):
`find_challenge` selects the challenge matching the configured type from the
authorization's candidate list, failing when none matches. -/
def find_challenge (res : AcmeAuthorization) (ty : ChallengeType) :
    Except String AcmeChallenge :=
  match res.challenges.find? (fun c => c.ty == ty) with
  | some c => Except.ok c
  | none => Except.error "challenge not found"

/-- The result of `rcgen::Certificate::from_params` as `issue_cert` uses it:
the private key in DER and PEM form, and the (fallible) CSR serialization. -/
structure RcgenCert where
  privateKeyDer : List Nat
  privateKeyPem : List Nat
  requestDer : Except String (List Nat)

/-- A `rustls` `CertifiedKey`: the parsed certificate chain plus the signing
key (an abstract handle). -/
structure CertKey where
  chain : List (List Nat)
  key : Nat
deriving DecidableEq

/-- The external environment of `issue_cert`: the five `AcmeClient` protocol
operations (threaded through an abstract client/world state `W`), the cache
backend's write operations, and the external crypto libraries.
`thumbprint64` is modelled from the spec (`jose.rs` is not part of the
provided sources): it is `base64url(thumbprint(account_key))`, fixed for the
configured account key, failing when the key type admits no JWK thumbprint. -/
structure AcmeEnv (W : Type) where
  new_order : W → List String → Except String NewOrderRes × W
  fetch_authorization : W → String → Except String AcmeAuthorization × W
  trigger_challenge : W → String → ChallengeType → String → Except String Unit × W
  send_csr : W → String → List Nat → Except String CsrRes × W
  obtain_certificate : W → String → Except String (List Nat) × W
  cacheWritePkey : W → String → List String → List Nat → Except String Unit × W
  cacheWriteCert : W → String → List String → List Nat → Except String Unit × W
  thumbprint64 : Except String String
  keyAuthSha256 : String → Except String (List Nat)
  genAcmeCert : String → List Nat → Except String Nat
  makeCert : List String → Except String RcgenCert
  anyEcdsa : List Nat → Nat
  parsePem : List Nat → Except String (List (List Nat))

/-- Modelled from the spec (`jose.rs` is not part of the provided sources):
`jose::key_authorization(key_pair, token)` is
`token + "." + base64url(thumbprint(account_key))`, propagating a signing
error from the thumbprint computation. -/
def key_authorization (env : AcmeEnv W) (token : String) : Except String String :=
  match env.thumbprint64 with
  | Except.ok thumb => Except.ok (token ++ "." ++ thumb)
  | Except.error e => Except.error e

/-- The `AcmeConfig` fields `issue_cert` reads.  `cache_path` is the presence
of a configured persistent cache (`Option` in Rust). -/
structure AcmeConfig where
  domains : List String
  challenge_type : ChallengeType
  directory_name : String
  cache_path : Bool
deriving DecidableEq

/-- The externally visible actions of `issue_cert`, in program order. -/
inductive Event where
  | fetchAuth (url : String)
  | insertHttp01 (token value : String)
  | insertAlpn (domain : String)
  | trigger (ident : String) (ty : ChallengeType) (url : String)
  | sleep (secs : Nat)
  | installCert
  | writePkey
  | writeCert
deriving DecidableEq

/-- HashMap insert: the new binding replaces any previous binding of the key. -/
def mapInsert (m : List (String × String)) (k v : String) : List (String × String) :=
  (k, v) :: m.filter (fun p => p.1 != k)

/-- HashMap insert for the resolver's ALPN certificate map. -/
def mapInsertCert (m : List (String × Nat)) (k : String) (v : Nat) : List (String × Nat) :=
  (k, v) :: m.filter (fun p => p.1 != k)

/-- The mutable state of one issuance run: the abstract client/world state,
the resolver's active-certificate slot (`resolver.cert`), the resolver's
TLS-ALPN-01 certificate map (`resolver.acme_keys`, values as abstract
certificate handles), the HTTP-01 key-authorization map reached through
`config.keys_for_http01` (`none` models a configuration without it; per the
spec it is the Resolver's HTTP-01 map), and the event trace. -/
structure IssueState (W : Type) where
  world : W
  cert : Option CertKey
  acmeKeys : List (String × Nat)
  keysForHttp01 : Option (List (String × String))
  trace : List Event

/-- The challenge-registration block of the `pending` branch of `issue_cert`:
for HTTP-01, when the key map is configured, compute the key authorization
and insert it under the challenge token; for TLS-ALPN-01, compute the
key-authorization digest, synthesize the ACME certificate and insert it into
the resolver's ALPN map under the identifier.  Pure: it touches no client
state, only the resolver-side maps and the trace. -/
def registerChallenge (env : AcmeEnv W) (config : AcmeConfig) (st : IssueState W)
    (res : AcmeAuthorization) (challenge : AcmeChallenge) :
    Except String (IssueState W) :=
  match config.challenge_type with
  | ChallengeType.http01 =>
    match st.keysForHttp01 with
    | some keys =>
      match key_authorization env challenge.token with
      | Except.error e => Except.error e
      | Except.ok ka =>
        Except.ok { st with
          keysForHttp01 := some (mapInsert keys challenge.token ka)
          trace := st.trace ++ [Event.insertHttp01 challenge.token ka] }
    | none => Except.ok st
  | ChallengeType.tlsAlpn01 =>
    match env.keyAuthSha256 challenge.token with
    | Except.error e => Except.error e
    | Except.ok dig =>
      match env.genAcmeCert res.identifierValue dig with
      | Except.error e => Except.error e
      | Except.ok authKey =>
        Except.ok { st with
          acmeKeys := mapInsertCert st.acmeKeys res.identifierValue authKey
          trace := st.trace ++ [Event.insertAlpn res.identifierValue] }

/-- The loop body of `issue_cert` for one authorization URL: fetch the
authorization; `valid` is skipped (returns `true` = counts toward
`all_valid`); `pending` selects the configured challenge, registers the
challenge material (HTTP-01 key authorization when the map is configured,
TLS-ALPN-01 synthetic certificate) and calls `trigger_challenge`; `invalid`
fails immediately with the `unable to authorize` error; any other status
just clears `all_valid`. -/
def processAuth (env : AcmeEnv W) (config : AcmeConfig) (st : IssueState W)
    (authUrl : String) : Except String Bool × IssueState W :=
  let fr := env.fetch_authorization st.world authUrl
  let st := { st with world := fr.2, trace := st.trace ++ [Event.fetchAuth authUrl] }
  match fr.1 with
    | Except.error e => (Except.error e, st)
    | Except.ok res =>
      if res.status = "valid" then (Except.ok true, st)
      else if res.status = "pending" then
        match find_challenge res config.challenge_type with
        | Except.error e => (Except.error e, st)
        | Except.ok challenge =>
          match registerChallenge env config st res challenge with
          | Except.error e => (Except.error e, st)
          | Except.ok st =>
            let tr := env.trigger_challenge st.world res.identifierValue config.challenge_type
              challenge.url
            let st := { st with
              world := tr.2
              trace := st.trace ++
                [Event.trigger res.identifierValue config.challenge_type challenge.url] }
            match tr.1 with
            | Except.error e => (Except.error e, st)
            | Except.ok _ => (Except.ok false, st)
      else if res.status = "invalid" then
        (Except.error ("unable to authorize `" ++ res.identifierValue ++ "`: " ++
          (match res.error with
           | some problem => problem.detail
           | none => "unknown")), st)
      else (Except.ok false, st)

/-- One polling round: iterate the authorization URLs, accumulating
`all_valid`; an error from any authorization aborts the round. -/
def processAuths (env : AcmeEnv W) (config : AcmeConfig) :
    List String → Bool → IssueState W → Except String Bool × IssueState W
  | [], allValid, st => (Except.ok allValid, st)
  | url :: rest, allValid, st =>
    match processAuth env config st url with
    | (Except.error e, st) => (Except.error e, st)
    | (Except.ok isValid, st) => processAuths env config rest (allValid && isValid) st

/-- The `for i in 1..5` polling loop over the round indices still to run:
each round re-polls all authorizations; if all were `valid` the loop breaks
with `valid = true`; otherwise the code sleeps `i * 10` seconds (also after
the last round) and continues; exhausting the rounds leaves `valid = false`. -/
def authRoundsGo (env : AcmeEnv W) (config : AcmeConfig) (authUrls : List String) :
    List Nat → IssueState W → Except String Bool × IssueState W
  | [], st => (Except.ok false, st)
  | i :: rest, st =>
    match processAuths env config authUrls true st with
    | (Except.error e, st) => (Except.error e, st)
    | (Except.ok allValid, st) =>
      if allValid then (Except.ok true, st)
      else
        authRoundsGo env config authUrls rest
          { st with trace := st.trace ++ [Event.sleep (i * 10)] }

/-- The finalize/download/install/cache tail of `issue_cert` (everything
after the authorization loop has succeeded): build the CSR key pair and
request, submit it to the finalize URL, check the returned order status,
download and parse the certificate chain, install the new `CertifiedKey`
into the resolver's active slot, and finally write both PEM records to the
cache when one is configured (each write's error propagating via `?`). -/
def finalizePhase (env : AcmeEnv W) (config : AcmeConfig) (finalizeUrl : String)
    (st : IssueState W) : Except String Unit × IssueState W :=
  match env.makeCert config.domains with
  | Except.error e =>
    (Except.error ("failed create certificate request: " ++ e), st)
  | Except.ok cert =>
    let pk := env.anyEcdsa cert.privateKeyDer
    match cert.requestDer with
    | Except.error e =>
      (Except.error ("failed to serialize request der " ++ e), st)
    | Except.ok csr =>
      let sr := env.send_csr st.world finalizeUrl csr
      let st := { st with world := sr.2 }
      match sr.1 with
      | Except.error e => (Except.error e, st)
      | Except.ok orderRes2 =>
        if orderRes2.status = "invalid" then
          (Except.error ("failed to request certificate: " ++
            (match orderRes2.error with
             | some problem => problem.detail
             | none => "unknown")), st)
        else if orderRes2.status ≠ "valid" then
          (Except.error ("failed to request certificate: unexpected status `" ++
            orderRes2.status ++ "`"), st)
        else
          match orderRes2.certificate with
          | none =>
            (Except.error "invalid resonse: missing `certificate` url", st)
          | some certUrl =>
            let dl := env.obtain_certificate st.world certUrl
            let st := { st with world := dl.2 }
            match dl.1 with
            | Except.error e => (Except.error e, st)
            | Except.ok certPem =>
              match env.parsePem certPem with
              | Except.error e => (Except.error ("invalid pem: " ++ e), st)
              | Except.ok chain =>
                let st := { st with
                  cert := some ⟨chain, pk⟩
                  trace := st.trace ++ [Event.installCert] }
                if config.cache_path then
                  let w1 := env.cacheWritePkey st.world config.directory_name
                    config.domains cert.privateKeyPem
                  let st := { st with
                    world := w1.2
                    trace := st.trace ++ [Event.writePkey] }
                  match w1.1 with
                  | Except.error e => (Except.error e, st)
                  | Except.ok _ =>
                    let w2 := env.cacheWriteCert st.world config.directory_name
                      config.domains certPem
                    let st := { st with
                      world := w2.2
                      trace := st.trace ++ [Event.writeCert] }
                    match w2.1 with
                    | Except.error e => (Except.error e, st)
                    | Except.ok _ => (Except.ok (), st)
                else (Except.ok (), st)

/-- `issue_cert` from `issuer.rs`: create the order, drive the authorization
polling loop (round indices 1,2,3,4), fail with
`authorization failed too many times` when no round saw all authorizations
`valid`, and otherwise run the finalize/download/install/cache tail against
the order's finalize URL. -/
def issue_cert (env : AcmeEnv W) (config : AcmeConfig) (st : IssueState W) :
    Except String Unit × IssueState W :=
  let nr := env.new_order st.world config.domains
  let st := { st with world := nr.2 }
  match nr.1 with
  | Except.error e => (Except.error e, st)
  | Except.ok orderRes =>
    match authRoundsGo env config orderRes.authorizations [1, 2, 3, 4] st with
    | (Except.error e, st) => (Except.error e, st)
    | (Except.ok valid, st) =>
      if !valid then (Except.error "authorization failed too many times", st)
      else finalizePhase env config orderRes.finalize st

/-- The sleep durations recorded in a trace, in order. -/
def sleepDurations (tr : List Event) : List Nat :=
  tr.filterMap (fun e =>
    match e with
    | Event.sleep n => some n
    | _ => none)

/-- The authorization-fetch count of a trace. -/
def fetchCount (tr : List Event) : Nat :=
  (tr.filter (fun e =>
    match e with
    | Event.fetchAuth _ => true
    | _ => false)).length

/-! ## Helper lemmas -/

/-- Folding the context updates of `file_hash_part` equals hashing the
concatenation `domain₀ ‖ 0x00 ‖ domain₁ ‖ 0x00 ‖ …`. -/
theorem foldl_update_eq_flatten (D : List String) (acc : List Nat) :
    D.foldl (fun ctx el => ctx ++ strBytes el ++ [0]) acc =
      acc ++ (D.map (fun d => strBytes d ++ [0])).flatten := by
  induction D generalizing acc with
  | nil => simp
  | cons d rest ih =>
    simp only [List.foldl_cons, List.map_cons, List.flatten_cons]
    rw [ih]
    simp [List.append_assoc]

/-- `file_hash_part` written as the spec's digest formula. -/
theorem file_hash_part_eq_spec (D : List String) :
    file_hash_part D =
      String.mk (base64urlNoPad (sha256 ((D.map (fun d => strBytes d ++ [0])).flatten))) := by
  unfold file_hash_part
  rw [foldl_update_eq_flatten]
  simp

/-! ## Claim theorems: the cache -/

/-- C5: the cache file name used by `read_pkey`/`write_pkey` (resp.
`read_cert`/`write_cert`) equals the spec's formula
`"pkey-"` (resp. `"cert-"`) `++ directory_name ++ "-" ++
base64url(SHA-256(domain₀ ‖ 0x00 ‖ domain₁ ‖ 0x00 ‖ …))`; the derivation is
deterministic (equal inputs give equal names); and permuting the domain
order changes the derived key, shown at the concrete instance
`["a.com", "b.com"]` versus `["b.com", "a.com"]` (the universal reading is
SHA-256 collision freedom, which holds of every instance one can compute). -/
theorem c5_cache_key_derivation :
    (∀ dir D, pkeyFileName dir D = cacheKeySpec "pkey-" dir D) ∧
    (∀ dir D, certFileName dir D = cacheKeySpec "cert-" dir D) ∧
    (∀ dir1 dir2 D1 D2, dir1 = dir2 → D1 = D2 →
      pkeyFileName dir1 D1 = pkeyFileName dir2 D2 ∧
      certFileName dir1 D1 = certFileName dir2 D2) ∧
    (pkeyFileName "x" ["a.com", "b.com"] ≠ pkeyFileName "x" ["b.com", "a.com"] ∧
     certFileName "x" ["a.com", "b.com"] ≠ certFileName "x" ["b.com", "a.com"]) := by
  refine ⟨?_, ?_, ?_, ?_, ?_⟩
  · intro dir D
    unfold pkeyFileName cacheKeySpec
    rw [file_hash_part_eq_spec]
  · intro dir D
    unfold certFileName cacheKeySpec
    rw [file_hash_part_eq_spec]
  · intro dir1 dir2 D1 D2 h1 h2
    subst h1; subst h2; exact ⟨rfl, rfl⟩
  · decide
  · decide

/-- Closed instance of C5: the derivation applied at a concrete input. -/
theorem c5_cache_key_derivation_witness :
    pkeyFileName "d" ["a.com"] = pkeyFileName "d" ["a.com"] :=
  (c5_cache_key_derivation.2.2.1 "d" "d" ["a.com"] ["a.com"] rfl rfl).1

/-- C6: a successful `write_cert` (resp. `write_pkey`) of `data` under a
`(directory_name, domains)` key followed by `read_cert` (resp. `read_pkey`)
of the same key returns `Ok(Some(data))` byte-identically — the write opens
with `truncate(true)` so any previous record at that key (the arbitrary
prior filesystem `fs`) is replaced by exactly `data`. -/
theorem c6_write_read_round_trip :
    ∀ (fs : FsModel) (root dir : String) (D : List String) (data : List Nat),
      read_cert (write_cert fs root dir D data) root dir D = Except.ok (some data) ∧
      read_pkey (write_pkey fs root dir D data) root dir D = Except.ok (some data) := by
  intro fs root dir D data
  constructor
  · unfold read_cert write_cert write_data readMatchCert
    simp
  · unfold read_pkey write_pkey write_data readMatchPkey
    simp

/-- C7: when the backing record does not exist — `tokio::fs::read` fails with
`ErrorKind::NotFound`, which is also the outcome when the cache root
directory itself is missing — `read_pkey` and `read_cert` return
`Ok(None)`; any read failure of a kind other than `NotFound` is surfaced
as the error itself. -/
theorem c7_read_absent_and_error_surfacing :
    (∀ (fs : FsModel) (root dir : String) (D : List String),
      fs (cachePath root (pkeyFileName dir D)) = Except.error FsErrorKind.notFound →
      read_pkey fs root dir D = Except.ok none) ∧
    (∀ (fs : FsModel) (root dir : String) (D : List String),
      fs (cachePath root (certFileName dir D)) = Except.error FsErrorKind.notFound →
      read_cert fs root dir D = Except.ok none) ∧
    (∀ (fs : FsModel) (root dir : String) (D : List String) (k : FsErrorKind),
      fs (cachePath root (pkeyFileName dir D)) = Except.error k →
      k ≠ FsErrorKind.notFound →
      read_pkey fs root dir D = Except.error k) ∧
    (∀ (fs : FsModel) (root dir : String) (D : List String) (k : FsErrorKind),
      fs (cachePath root (certFileName dir D)) = Except.error k →
      k ≠ FsErrorKind.notFound →
      read_cert fs root dir D = Except.error k) := by
  refine ⟨?_, ?_, ?_, ?_⟩
  · intro fs root dir D h
    unfold read_pkey readMatchPkey
    rw [h]
  · intro fs root dir D h
    unfold read_cert readMatchCert
    rw [h]
  · intro fs root dir D k h hk
    unfold read_pkey readMatchPkey
    rw [h]
    cases k with
    | notFound => exact absurd rfl hk
    | other s => rfl
  · intro fs root dir D k h hk
    unfold read_cert readMatchCert
    rw [h]
    cases k with
    | notFound => exact absurd rfl hk
    | other s => rfl

/-- Closed instance of C7: an empty filesystem (every path `NotFound`, as
when the cache root was never created) reads back as absent, and an
injected `PermissionDenied`-style failure is surfaced. -/
theorem c7_read_absent_and_error_surfacing_witness :
    read_pkey (fun _ => Except.error FsErrorKind.notFound) "r" "d" ["a.com"] =
      Except.ok none ∧
    read_cert (fun _ => Except.error (FsErrorKind.other "PermissionDenied")) "r" "d" ["a.com"] =
      Except.error (FsErrorKind.other "PermissionDenied") :=
  ⟨c7_read_absent_and_error_surfacing.1 (fun _ => Except.error FsErrorKind.notFound)
      "r" "d" ["a.com"] rfl,
   c7_read_absent_and_error_surfacing.2.2.2
      (fun _ => Except.error (FsErrorKind.other "PermissionDenied")) "r" "d" ["a.com"]
      (FsErrorKind.other "PermissionDenied") rfl (by decide)⟩

/-- `registerChallenge` never touches the resolver's active certificate slot. -/
theorem registerChallenge_cert (env : AcmeEnv W) (config : AcmeConfig)
    (st : IssueState W) (res : AcmeAuthorization) (challenge : AcmeChallenge)
    (st' : IssueState W)
    (h : registerChallenge env config st res challenge = Except.ok st') :
    st'.cert = st.cert := by
  unfold registerChallenge at h
  split at h <;> repeat' split at h
  all_goals first
    | (cases h; rfl)
    | cases h

/-- `processAuth` never touches the resolver's active certificate slot. -/
theorem processAuth_cert (env : AcmeEnv W) (config : AcmeConfig)
    (st : IssueState W) (u : String) :
    (processAuth env config st u).2.cert = st.cert := by
  unfold processAuth
  dsimp only
  repeat' split
  all_goals try rfl
  all_goals
    rename_i heqreg _ _ _
    have hc := registerChallenge_cert _ _ _ _ _ _ heqreg
    simp_all

/-- `processAuths` never touches the resolver's active certificate slot. -/
theorem processAuths_cert (env : AcmeEnv W) (config : AcmeConfig) :
    ∀ (urls : List String) (b : Bool) (st : IssueState W),
      (processAuths env config urls b st).2.cert = st.cert := by
  intro urls
  induction urls with
  | nil => intro b st; rfl
  | cons u rest ih =>
    intro b st
    unfold processAuths
    have hc := processAuth_cert env config st u
    split
    · rename_i heq
      have : (processAuth env config st u).2.cert = st.cert := hc
      rw [heq] at this
      exact this
    · rename_i isValid st' heq
      have : (processAuth env config st u).2.cert = st.cert := hc
      rw [heq] at this
      rw [ih]
      exact this

/-- The polling loop never touches the resolver's active certificate slot. -/
theorem authRoundsGo_cert (env : AcmeEnv W) (config : AcmeConfig) (urls : List String) :
    ∀ (rs : List Nat) (st : IssueState W),
      (authRoundsGo env config urls rs st).2.cert = st.cert := by
  intro rs
  induction rs with
  | nil => intro st; rfl
  | cons i rest ih =>
    intro st
    unfold authRoundsGo
    have hc := processAuths_cert env config urls true st
    split
    · rename_i heq
      rw [heq] at hc
      exact hc
    · rename_i allValid st' heq
      rw [heq] at hc
      split
      · exact hc
      · rw [ih]
        exact hc

/-- The finalize tail changes the resolver's active slot only together with
recording the `installCert` event: a run of it whose final trace contains no
`installCert` left the slot as it found it. -/
theorem finalizePhase_frame (env : AcmeEnv W) (config : AcmeConfig)
    (finalizeUrl : String) (st : IssueState W) (r : Except String Unit)
    (stF : IssueState W)
    (h : finalizePhase env config finalizeUrl st = (r, stF))
    (hni : Event.installCert ∉ stF.trace) :
    stF.cert = st.cert := by
  unfold finalizePhase at h
  dsimp only at h
  repeat' split at h
  all_goals simp only [Prod.mk.injEq] at h
  all_goals obtain ⟨h1, h2⟩ := h
  all_goals subst h2
  all_goals first
    | rfl
    | (exfalso; apply hni; simp)

/-- C3: an issuance run that returns an error without having reached the
install step (no `installCert` event was recorded — this covers `new_order`
failure, authorization fetch/trigger failure, `AuthorizationFailed`,
`AuthorizationTimeout`, CSR/finalize failure, and certificate
download/parse failure) leaves the resolver's active certificate slot
exactly as it was before `issue_cert` was called. -/
theorem c3_failed_run_preserves_active_cert (env : AcmeEnv W) (config : AcmeConfig)
    (st : IssueState W) (e : String) (stF : IssueState W)
    (h : issue_cert env config st = (Except.error e, stF))
    (hni : Event.installCert ∉ stF.trace) :
    stF.cert = st.cert := by
  unfold issue_cert at h
  dsimp only at h
  split at h
  · -- new_order failed
    simp only [Prod.mk.injEq] at h
    obtain ⟨h1, h2⟩ := h
    subst h2
    rfl
  · rename_i orderRes heqNo
    split at h
    · -- authorization loop failed
      rename_i stA heqA
      simp only [Prod.mk.injEq] at h
      obtain ⟨h1, h2⟩ := h
      subst h2
      have hc := authRoundsGo_cert env config orderRes.authorizations [1, 2, 3, 4]
        { st with world := (env.new_order st.world config.domains).2 }
      rw [heqA] at hc
      exact hc
    · rename_i valid stA heqA
      have hc := authRoundsGo_cert env config orderRes.authorizations [1, 2, 3, 4]
        { st with world := (env.new_order st.world config.domains).2 }
      rw [heqA] at hc
      split at h
      · -- AuthorizationTimeout
        simp only [Prod.mk.injEq] at h
        obtain ⟨h1, h2⟩ := h
        subst h2
        exact hc
      · -- finalize tail failed before install
        rw [finalizePhase_frame env config orderRes.finalize stA (Except.error e) stF h hni]
        exact hc

/-- The events of a sequence of polling rounds in which every authorization
is re-fetched and none is valid: per round index `i`, one fetch per URL
followed by the `i * 10`-second sleep. -/
def roundsTrace (urls : List String) (rs : List Nat) : List Event :=
  (rs.map (fun i => urls.map Event.fetchAuth ++ [Event.sleep (i * 10)])).flatten

/-- `sleepDurations` distributes over trace concatenation. -/
theorem sleepDurations_append (a b : List Event) :
    sleepDurations (a ++ b) = sleepDurations a ++ sleepDurations b := by
  unfold sleepDurations
  rw [List.filterMap_append]

/-- `fetchCount` distributes over trace concatenation. -/
theorem fetchCount_append (a b : List Event) :
    fetchCount (a ++ b) = fetchCount a + fetchCount b := by
  unfold fetchCount
  rw [List.filter_append, List.length_append]

/-- A block of fetch events contains no sleeps. -/
theorem sleepDurations_fetch_map (urls : List String) :
    sleepDurations (urls.map Event.fetchAuth) = [] := by
  unfold sleepDurations
  rw [List.filterMap_map]
  exact List.filterMap_eq_nil_iff.mpr (fun u _ => rfl)

/-- A block of fetch events counts one fetch per URL. -/
theorem fetchCount_fetch_map (urls : List String) :
    fetchCount (urls.map Event.fetchAuth) = urls.length := by
  unfold fetchCount
  rw [List.filter_map]
  simp [Function.comp]

/-- Processing one authorization whose fetched status is neither `valid`,
`pending` nor `invalid` (e.g. `processing`): the fetch is recorded, the
round's `all_valid` contribution is `false`, and nothing else happens. -/
theorem processAuth_nonvalid (env : AcmeEnv W) (config : AcmeConfig)
    (st : IssueState W) (u : String) (a : AcmeAuthorization)
    (hf : (env.fetch_authorization st.world u).1 = Except.ok a)
    (h1 : a.status ≠ "valid") (h2 : a.status ≠ "pending") (h3 : a.status ≠ "invalid") :
    processAuth env config st u =
      (Except.ok false,
       { st with world := (env.fetch_authorization st.world u).2
                 trace := st.trace ++ [Event.fetchAuth u] }) := by
  unfold processAuth
  dsimp only
  rw [hf]
  simp [h1, h2, h3]

/-- A full round over URLs that all fetch to a non-`valid`, non-`pending`,
non-`invalid` status: every URL is fetched in order, and the accumulated
`all_valid` is `false` unless the URL list is empty. -/
theorem processAuths_nonvalid (env : AcmeEnv W) (config : AcmeConfig)
    (urls : List String)
    (hfetch : ∀ (w : W) (u : String), u ∈ urls →
      ∃ a, (env.fetch_authorization w u).1 = Except.ok a ∧
        a.status ≠ "valid" ∧ a.status ≠ "pending" ∧ a.status ≠ "invalid") :
    ∀ (b : Bool) (st : IssueState W), ∃ w',
      processAuths env config urls b st =
        (Except.ok (b && urls.isEmpty),
         { st with world := w', trace := st.trace ++ urls.map Event.fetchAuth }) := by
  induction urls with
  | nil =>
    intro b st
    refine ⟨st.world, ?_⟩
    simp [processAuths]
  | cons u rest ih =>
    intro b st
    obtain ⟨a, hf, h1, h2, h3⟩ := hfetch st.world u (by simp)
    have hpa := processAuth_nonvalid env config st u a hf h1 h2 h3
    obtain ⟨w', hrest⟩ := ih (fun w v hv => hfetch w v (by simp [hv])) (b && false)
      { st with world := (env.fetch_authorization st.world u).2
                trace := st.trace ++ [Event.fetchAuth u] }
    refine ⟨w', ?_⟩
    unfold processAuths
    rw [hpa]
    dsimp only
    rw [hrest]
    simp

/-- The polling loop over a non-empty URL list in which no authorization is
ever `valid`: every listed round runs in full (one fetch per URL) and is
followed by its `i * 10`-second sleep — including the last round — and the
loop returns with `valid = false`. -/
theorem authRoundsGo_nonvalid (env : AcmeEnv W) (config : AcmeConfig)
    (urls : List String) (hne : urls ≠ [])
    (hfetch : ∀ (w : W) (u : String), u ∈ urls →
      ∃ a, (env.fetch_authorization w u).1 = Except.ok a ∧
        a.status ≠ "valid" ∧ a.status ≠ "pending" ∧ a.status ≠ "invalid") :
    ∀ (rs : List Nat) (st : IssueState W), ∃ w',
      authRoundsGo env config urls rs st =
        (Except.ok false,
         { st with world := w', trace := st.trace ++ roundsTrace urls rs }) := by
  intro rs
  induction rs with
  | nil =>
    intro st
    refine ⟨st.world, ?_⟩
    simp [authRoundsGo, roundsTrace]
  | cons i rest ih =>
    intro st
    obtain ⟨w1, hround⟩ := processAuths_nonvalid env config urls hfetch true st
    have hempty : urls.isEmpty = false := by
      cases urls with
      | nil => exact absurd rfl hne
      | cons x xs => rfl
    obtain ⟨w2, hrest⟩ := ih
      { st with world := w1
                trace := (st.trace ++ urls.map Event.fetchAuth) ++ [Event.sleep (i * 10)] }
    refine ⟨w2, ?_⟩
    unfold authRoundsGo
    rw [hround]
    dsimp only
    simp only [hempty, Bool.true_and, Bool.false_eq_true, if_false]
    rw [hrest]
    simp [roundsTrace, List.append_assoc]

/-- The sleeps of a rounds trace: `i * 10` per round index. -/
theorem sleepDurations_roundsTrace (urls : List String) (rs : List Nat) :
    sleepDurations (roundsTrace urls rs) = rs.map (fun i => i * 10) := by
  induction rs with
  | nil => rfl
  | cons i rest ih =>
    unfold roundsTrace at ih ⊢
    simp only [List.map_cons, List.flatten_cons]
    rw [sleepDurations_append, sleepDurations_append, sleepDurations_fetch_map, ih]
    rfl

/-- The fetches of a rounds trace: one per URL per round. -/
theorem fetchCount_roundsTrace (urls : List String) (rs : List Nat) :
    fetchCount (roundsTrace urls rs) = rs.length * urls.length := by
  induction rs with
  | nil => simp [roundsTrace, fetchCount]
  | cons i rest ih =>
    unfold roundsTrace at ih ⊢
    simp only [List.map_cons, List.flatten_cons]
    rw [fetchCount_append, fetchCount_append, fetchCount_fetch_map, ih]
    have h0 : fetchCount [Event.sleep (i * 10)] = 0 := rfl
    rw [h0]
    simp [List.length_cons]
    ring

/-- C1 (amended): an issuance run whose authorizations never reach `valid`
(every fetch returns a status other than `valid`, `pending` and `invalid`,
e.g. `processing`) performs exactly 4 polling rounds over the order's
authorization URLs and fails with the `authorization failed too many times`
error — but the linear backoff sleeps after every unsuccessful round
including the last: the recorded sleeps are 10s, 20s, 30s, 40s (the claim's
"no sleep after the 4th round" does not hold of the code, which sleeps
`i * 10` seconds at the bottom of each loop iteration, also for `i = 4`). -/
theorem c1_backoff_bound_with_final_sleep (env : AcmeEnv W) (config : AcmeConfig)
    (st : IssueState W) (orderRes : NewOrderRes)
    (hno : (env.new_order st.world config.domains).1 = Except.ok orderRes)
    (hne : orderRes.authorizations ≠ [])
    (hfetch : ∀ (w : W) (u : String), u ∈ orderRes.authorizations →
      ∃ a, (env.fetch_authorization w u).1 = Except.ok a ∧
        a.status ≠ "valid" ∧ a.status ≠ "pending" ∧ a.status ≠ "invalid") :
    ∃ stF, issue_cert env config st =
        (Except.error "authorization failed too many times", stF) ∧
      sleepDurations stF.trace = sleepDurations st.trace ++ [10, 20, 30, 40] ∧
      fetchCount stF.trace = fetchCount st.trace + 4 * orderRes.authorizations.length := by
  obtain ⟨w', hgo⟩ := authRoundsGo_nonvalid env config orderRes.authorizations hne hfetch
    [1, 2, 3, 4] { st with world := (env.new_order st.world config.domains).2 }
  refine ⟨{ st with world := w', trace := st.trace ++ roundsTrace orderRes.authorizations [1, 2, 3, 4] }, ?_, ?_, ?_⟩
  · unfold issue_cert
    dsimp only
    rw [hno]
    dsimp only
    rw [hgo]
    rfl
  · dsimp only
    rw [sleepDurations_append, sleepDurations_roundsTrace]
    rfl
  · dsimp only
    rw [fetchCount_append, fetchCount_roundsTrace]
    rfl

/-- A base initial state: no active certificate, empty maps and trace,
no HTTP-01 key map configured. -/
def st0 : IssueState Unit :=
  { world := (), cert := none, acmeKeys := [], keysForHttp01 := none, trace := [] }

/-- A client whose single authorization stays in status `processing`
forever; the run can never get past the authorization loop. -/
def c1Env : AcmeEnv Unit :=
  { new_order := fun _ _ => (Except.ok ⟨["u1"], "fin"⟩, ())
    fetch_authorization := fun _ _ => (Except.ok ⟨"processing", "a.com", [], none⟩, ())
    trigger_challenge := fun _ _ _ _ => (Except.ok (), ())
    send_csr := fun _ _ _ => (Except.error "unreached", ())
    obtain_certificate := fun _ _ => (Except.error "unreached", ())
    cacheWritePkey := fun _ _ _ _ => (Except.ok (), ())
    cacheWriteCert := fun _ _ _ _ => (Except.ok (), ())
    thumbprint64 := Except.ok "THUMB"
    keyAuthSha256 := fun _ => Except.ok []
    genAcmeCert := fun _ _ => Except.ok 0
    makeCert := fun _ => Except.error "unreached"
    anyEcdsa := fun _ => 0
    parsePem := fun _ => Except.error "unreached" }

/-- Configuration for the `c1Env` run. -/
def c1Cfg : AcmeConfig :=
  { domains := ["example.com"], challenge_type := ChallengeType.http01,
    directory_name := "dir", cache_path := false }

/-- C1 counterexample: on a concrete run in which the only authorization
never leaves `processing`, the code fails with `AuthorizationTimeout` after
4 rounds but records the sleeps 10s, 20s, 30s **and 40s** — there is a sleep
after the 4th round, so the claim's sleep schedule `[10, 20, 30]` with no
final sleep is not what the code does. -/
theorem c1_counterexample_sleep_after_round_4 :
    (issue_cert c1Env c1Cfg st0).1 = Except.error "authorization failed too many times" ∧
    sleepDurations (issue_cert c1Env c1Cfg st0).2.trace = [10, 20, 30, 40] ∧
    [10, 20, 30, 40] ≠ [10, 20, 30] := by
  refine ⟨rfl, rfl, by decide⟩

/-- Closed instance of the amended C1 at the `c1Env` run. -/
theorem c1_backoff_bound_with_final_sleep_witness :
    ∃ stF, issue_cert c1Env c1Cfg st0 =
        (Except.error "authorization failed too many times", stF) ∧
      sleepDurations stF.trace = sleepDurations st0.trace ++ [10, 20, 30, 40] ∧
      fetchCount stF.trace = fetchCount st0.trace + 4 * (["u1"] : List String).length :=
  c1_backoff_bound_with_final_sleep c1Env c1Cfg st0 ⟨["u1"], "fin"⟩ rfl (by decide)
    (fun _ _ _ => ⟨⟨"processing", "a.com", [], none⟩, rfl, by decide, by decide, by decide⟩)

/-- A client whose `new_order` fails outright. -/
def c3Env : AcmeEnv Unit :=
  { c1Env with new_order := fun _ _ => (Except.error "connection refused", ()) }

/-- Closed instance of C3: a failed run (here: `new_order` refused) leaves
the previously active certificate exactly in place. -/
theorem c3_failed_run_preserves_active_cert_witness :
    ((issue_cert c3Env c1Cfg { st0 with cert := some ⟨[[1, 2]], 5⟩ }).2).cert =
      some (CertKey.mk [[1, 2]] 5) :=
  c3_failed_run_preserves_active_cert c3Env c1Cfg { st0 with cert := some ⟨[[1, 2]], 5⟩ }
    "connection refused" (issue_cert c3Env c1Cfg { st0 with cert := some ⟨[[1, 2]], 5⟩ }).2
    rfl (by decide)

/-- Splitting a round: once a prefix of the URL list has been processed
without error, processing the whole list continues with the suffix from the
accumulated state. -/
theorem processAuths_append_ok (env : AcmeEnv W) (config : AcmeConfig)
    (xs : List String) :
    ∀ (ys : List String) (b b' : Bool) (st st' : IssueState W),
      processAuths env config xs b st = (Except.ok b', st') →
      processAuths env config (xs ++ ys) b st = processAuths env config ys b' st' := by
  induction xs with
  | nil =>
    intro ys b b' st st' h
    simp only [processAuths, Prod.mk.injEq, Except.ok.injEq] at h
    obtain ⟨h1, h2⟩ := h
    subst h1; subst h2
    rw [List.nil_append]
  | cons x rest ih =>
    intro ys b b' st st' h
    simp only [processAuths] at h
    rw [List.cons_append]
    simp only [processAuths]
    split at h
    · exact absurd h (by simp)
    · rename_i isValid st1 heq
      exact ih ys (b && isValid) b' st1 st' h

/-- Splitting the polling loop: rounds already run without a break or an
error are a pure prefix; the loop continues on the remaining round indices
from the accumulated state. -/
theorem authRoundsGo_append_okFalse (env : AcmeEnv W) (config : AcmeConfig)
    (urls : List String) (done : List Nat) :
    ∀ (rest : List Nat) (st s' : IssueState W),
      authRoundsGo env config urls done st = (Except.ok false, s') →
      authRoundsGo env config urls (done ++ rest) st =
        authRoundsGo env config urls rest s' := by
  induction done with
  | nil =>
    intro rest st s' h
    simp only [authRoundsGo, Prod.mk.injEq, Except.ok.injEq] at h
    obtain ⟨h1, h2⟩ := h
    subst h2
    rw [List.nil_append]
  | cons i more ih =>
    intro rest st s' h
    simp only [authRoundsGo] at h
    rw [List.cons_append]
    simp only [authRoundsGo]
    split at h
    · exact absurd h (by simp)
    · rename_i allValid st1 heq
      split at h
      · exact absurd h (by simp)
      · rename_i hAV
        rw [if_neg hAV]
        exact ih rest _ s' h

/-- Processing one authorization whose fetched status is `invalid` fails at
once with the `unable to authorize` error, right after the fetch. -/
theorem processAuth_invalid (env : AcmeEnv W) (config : AcmeConfig)
    (st : IssueState W) (u : String) (a : AcmeAuthorization)
    (hf : (env.fetch_authorization st.world u).1 = Except.ok a)
    (hinv : a.status = "invalid") :
    processAuth env config st u =
      (Except.error ("unable to authorize `" ++ a.identifierValue ++ "`: " ++
        (match a.error with
         | some problem => problem.detail
         | none => "unknown")),
       { st with world := (env.fetch_authorization st.world u).2
                 trace := st.trace ++ [Event.fetchAuth u] }) := by
  have h1 : a.status ≠ "valid" := by rw [hinv]; decide
  have h2 : a.status ≠ "pending" := by rw [hinv]; decide
  unfold processAuth
  dsimp only
  rw [hf]
  simp [h1, h2, hinv]

/-- C4: in whatever polling round (hypotheses: `done` earlier rounds ran
without error or success, and `pre` earlier URLs of the current round were
processed without error), an authorization fetched with status `invalid`
makes `issue_cert` return the `unable to authorize` (`AuthorizationFailed`)
error immediately: the final trace ends with that very fetch, so the
remaining URLs `post` of the round are not fetched, no sleep is recorded
for the round, and no further round starts. -/
theorem c4_invalid_authorization_short_circuits (env : AcmeEnv W)
    (config : AcmeConfig) (st : IssueState W) (orderRes : NewOrderRes)
    (done rest : List Nat) (i : Nat) (pre post : List String) (u : String)
    (bpre : Bool) (s_r s_u : IssueState W) (a : AcmeAuthorization)
    (hno : (env.new_order st.world config.domains).1 = Except.ok orderRes)
    (hsplit : [1, 2, 3, 4] = done ++ i :: rest)
    (hdone : authRoundsGo env config orderRes.authorizations done
      { st with world := (env.new_order st.world config.domains).2 } =
      (Except.ok false, s_r))
    (horder : orderRes.authorizations = pre ++ u :: post)
    (hpre : processAuths env config pre true s_r = (Except.ok bpre, s_u))
    (hf : (env.fetch_authorization s_u.world u).1 = Except.ok a)
    (hinv : a.status = "invalid") :
    issue_cert env config st =
      (Except.error ("unable to authorize `" ++ a.identifierValue ++ "`: " ++
        (match a.error with
         | some problem => problem.detail
         | none => "unknown")),
       { s_u with world := (env.fetch_authorization s_u.world u).2
                  trace := s_u.trace ++ [Event.fetchAuth u] }) := by
  have hu := processAuth_invalid env config s_u u a hf hinv
  have hround : processAuths env config orderRes.authorizations true s_r =
      (Except.error ("unable to authorize `" ++ a.identifierValue ++ "`: " ++
        (match a.error with
         | some problem => problem.detail
         | none => "unknown")),
       { s_u with world := (env.fetch_authorization s_u.world u).2
                  trace := s_u.trace ++ [Event.fetchAuth u] }) := by
    rw [horder, processAuths_append_ok env config pre (u :: post) true bpre s_r s_u hpre]
    unfold processAuths
    rw [hu]
  have hloop : authRoundsGo env config orderRes.authorizations [1, 2, 3, 4]
      { st with world := (env.new_order st.world config.domains).2 } =
      (Except.error ("unable to authorize `" ++ a.identifierValue ++ "`: " ++
        (match a.error with
         | some problem => problem.detail
         | none => "unknown")),
       { s_u with world := (env.fetch_authorization s_u.world u).2
                  trace := s_u.trace ++ [Event.fetchAuth u] }) := by
    rw [hsplit, authRoundsGo_append_okFalse env config orderRes.authorizations done
      (i :: rest) _ s_r hdone]
    unfold authRoundsGo
    rw [hround]
  unfold issue_cert
  dsimp only
  rw [hno]
  dsimp only
  rw [hloop]

/-- A client whose single authorization comes back `invalid` with a problem
detail. -/
def c4Env : AcmeEnv Unit :=
  { c1Env with
    fetch_authorization := fun _ _ =>
      (Except.ok ⟨"invalid", "a.com", [], some ⟨"dns fail"⟩⟩, ()) }

/-- Closed instance of C4: round 1, first URL `invalid` — the run stops at
that fetch with the `AuthorizationFailed` error and a trace that ends there
(no further fetch, no sleep, no further round). -/
theorem c4_invalid_authorization_short_circuits_witness :
    issue_cert c4Env c1Cfg st0 =
      (Except.error ("unable to authorize `" ++ "a.com" ++ "`: " ++ "dns fail"),
       { world := (), cert := none, acmeKeys := [], keysForHttp01 := none,
         trace := [Event.fetchAuth "u1"] }) :=
  c4_invalid_authorization_short_circuits c4Env c1Cfg st0 ⟨["u1"], "fin"⟩ [] [2, 3, 4] 1
    [] [] "u1" true _ _ ⟨"invalid", "a.com", [], some ⟨"dns fail"⟩⟩
    rfl rfl rfl rfl rfl rfl rfl

/-- The finalize tail when everything succeeds up to and including the
install, and then a cache write fails: the write's error becomes the
result, while the freshly installed `CertifiedKey` stays in the resolver's
active slot. -/
theorem finalizePhase_cache_write_failure (env : AcmeEnv W) (config : AcmeConfig)
    (finalizeUrl : String) (st : IssueState W) (cert : RcgenCert)
    (csr : List Nat) (orderRes2 : CsrRes) (certUrl : String)
    (certPem : List Nat) (chain : List (List Nat)) (e : String)
    (hmk : env.makeCert config.domains = Except.ok cert)
    (hreq : cert.requestDer = Except.ok csr)
    (hcsr : (env.send_csr st.world finalizeUrl csr).1 = Except.ok orderRes2)
    (hstatus : orderRes2.status = "valid")
    (hcert : orderRes2.certificate = some certUrl)
    (hdl : (env.obtain_certificate (env.send_csr st.world finalizeUrl csr).2 certUrl).1 =
      Except.ok certPem)
    (hpem : env.parsePem certPem = Except.ok chain)
    (hcache : config.cache_path = true)
    (hfail :
      (env.cacheWritePkey (env.obtain_certificate (env.send_csr st.world finalizeUrl csr).2
          certUrl).2 config.directory_name config.domains cert.privateKeyPem).1 =
        Except.error e ∨
      ((env.cacheWritePkey (env.obtain_certificate (env.send_csr st.world finalizeUrl csr).2
          certUrl).2 config.directory_name config.domains cert.privateKeyPem).1 =
        Except.ok () ∧
       (env.cacheWriteCert (env.cacheWritePkey (env.obtain_certificate
          (env.send_csr st.world finalizeUrl csr).2 certUrl).2 config.directory_name
          config.domains cert.privateKeyPem).2 config.directory_name config.domains
          certPem).1 = Except.error e)) :
    ∃ stF, finalizePhase env config finalizeUrl st = (Except.error e, stF) ∧
      stF.cert = some ⟨chain, env.anyEcdsa cert.privateKeyDer⟩ ∧
      Event.installCert ∈ stF.trace := by
  have hni : ¬(orderRes2.status = "invalid") := by rw [hstatus]; decide
  have hnv : ¬(orderRes2.status ≠ "valid") := by rw [hstatus]; decide
  unfold finalizePhase
  dsimp only
  rw [hmk]
  dsimp only
  rw [hreq]
  dsimp only
  rw [hcsr]
  dsimp only
  rw [if_neg hni, if_neg hnv, hcert]
  dsimp only
  rw [hdl]
  dsimp only
  rw [hpem]
  dsimp only
  rw [if_pos hcache]
  rcases hfail with hpk | ⟨hpk, hct⟩
  · rw [hpk]
    exact ⟨_, rfl, rfl, by simp⟩
  · rw [hpk]
    dsimp only
    rw [hct]
    exact ⟨_, rfl, rfl, by simp⟩

/-- C2 (amended): in a run that reaches the install step with a configured
cache, a failing `write_pkey` (or a succeeding `write_pkey` followed by a
failing `write_cert`) makes `issue_cert` **return that error** — the write
errors propagate via `?`, they are not merely reported — but the newly
installed in-memory `CertifiedKey` remains in the resolver's active slot:
the install is not unwound or reverted. -/
theorem c2_cache_write_failure_propagates_install_stays (env : AcmeEnv W)
    (config : AcmeConfig) (st : IssueState W) (orderRes : NewOrderRes)
    (s1 : IssueState W) (cert : RcgenCert) (csr : List Nat) (orderRes2 : CsrRes)
    (certUrl : String) (certPem : List Nat) (chain : List (List Nat)) (e : String)
    (hno : (env.new_order st.world config.domains).1 = Except.ok orderRes)
    (hauth : authRoundsGo env config orderRes.authorizations [1, 2, 3, 4]
      { st with world := (env.new_order st.world config.domains).2 } =
      (Except.ok true, s1))
    (hmk : env.makeCert config.domains = Except.ok cert)
    (hreq : cert.requestDer = Except.ok csr)
    (hcsr : (env.send_csr s1.world orderRes.finalize csr).1 = Except.ok orderRes2)
    (hstatus : orderRes2.status = "valid")
    (hcert : orderRes2.certificate = some certUrl)
    (hdl : (env.obtain_certificate (env.send_csr s1.world orderRes.finalize csr).2
      certUrl).1 = Except.ok certPem)
    (hpem : env.parsePem certPem = Except.ok chain)
    (hcache : config.cache_path = true)
    (hfail :
      (env.cacheWritePkey (env.obtain_certificate
          (env.send_csr s1.world orderRes.finalize csr).2 certUrl).2
          config.directory_name config.domains cert.privateKeyPem).1 =
        Except.error e ∨
      ((env.cacheWritePkey (env.obtain_certificate
          (env.send_csr s1.world orderRes.finalize csr).2 certUrl).2
          config.directory_name config.domains cert.privateKeyPem).1 =
        Except.ok () ∧
       (env.cacheWriteCert (env.cacheWritePkey (env.obtain_certificate
          (env.send_csr s1.world orderRes.finalize csr).2 certUrl).2
          config.directory_name config.domains cert.privateKeyPem).2
          config.directory_name config.domains certPem).1 = Except.error e)) :
    ∃ stF, issue_cert env config st = (Except.error e, stF) ∧
      stF.cert = some ⟨chain, env.anyEcdsa cert.privateKeyDer⟩ ∧
      Event.installCert ∈ stF.trace := by
  obtain ⟨stF, hfin, hc, hm⟩ := finalizePhase_cache_write_failure env config
    orderRes.finalize s1 cert csr orderRes2 certUrl certPem chain e
    hmk hreq hcsr hstatus hcert hdl hpem hcache hfail
  refine ⟨stF, ?_, hc, hm⟩
  unfold issue_cert
  dsimp only
  rw [hno]
  dsimp only
  rw [hauth]
  dsimp only
  exact hfin

/-- A client for which everything succeeds until the private-key cache
write, which fails with `disk full`. -/
def c2Env : AcmeEnv Unit :=
  { new_order := fun _ _ => (Except.ok ⟨["u1"], "fin"⟩, ())
    fetch_authorization := fun _ _ => (Except.ok ⟨"valid", "a.com", [], none⟩, ())
    trigger_challenge := fun _ _ _ _ => (Except.ok (), ())
    send_csr := fun _ _ _ => (Except.ok ⟨"valid", some "certurl", none⟩, ())
    obtain_certificate := fun _ _ => (Except.ok [80, 69, 77], ())
    cacheWritePkey := fun _ _ _ _ => (Except.error "disk full", ())
    cacheWriteCert := fun _ _ _ _ => (Except.ok (), ())
    thumbprint64 := Except.ok "THUMB"
    keyAuthSha256 := fun _ => Except.ok []
    genAcmeCert := fun _ _ => Except.ok 0
    makeCert := fun _ => Except.ok ⟨[1], [2], Except.ok [3]⟩
    anyEcdsa := fun _ => 9
    parsePem := fun _ => Except.ok [[80]] }

/-- Configuration with a persistent cache configured. -/
def c2Cfg : AcmeConfig :=
  { domains := ["example.com"], challenge_type := ChallengeType.http01,
    directory_name := "dir", cache_path := true }

/-- C2 counterexample: on a concrete run whose `write_pkey` fails after the
new certificate was installed, `issue_cert` **returns** the cache-write
error as its result — the error is re-raised fatally, not merely reported —
even though the new `CertifiedKey` stays installed.  This refutes the
claim's "reported but not re-raised as a fatal result of issue_cert". -/
theorem c2_counterexample_error_re_raised :
    (issue_cert c2Env c2Cfg st0).1 = Except.error "disk full" ∧
    (Except.error "disk full" : Except String Unit) ≠ Except.ok () ∧
    (issue_cert c2Env c2Cfg st0).2.cert = some ⟨[[80]], 9⟩ := by
  refine ⟨rfl, fun h => Except.noConfusion h, rfl⟩

/-- Closed instance of the amended C2 at the `c2Env` run. -/
theorem c2_cache_write_failure_witness :
    ∃ stF, issue_cert c2Env c2Cfg st0 = (Except.error "disk full", stF) ∧
      stF.cert = some ⟨[[80]], (9 : Nat)⟩ ∧
      Event.installCert ∈ stF.trace :=
  c2_cache_write_failure_propagates_install_stays c2Env c2Cfg st0 ⟨["u1"], "fin"⟩ _
    ⟨[1], [2], Except.ok [3]⟩ [3] ⟨"valid", some "certurl", none⟩ "certurl"
    [80, 69, 77] [[80]] "disk full" rfl rfl rfl rfl rfl rfl rfl rfl rfl rfl
    (Or.inl rfl)

/-- C10: a finalize response with status `valid` but no certificate URL
makes `issue_cert` return the `invalid resonse: missing certificate url`
error (the `ok_or_else` conversion, not a panic), and the resolver's active
certificate slot is left unchanged. -/
theorem c10_missing_certificate_url_is_error (env : AcmeEnv W)
    (config : AcmeConfig) (st : IssueState W) (orderRes : NewOrderRes)
    (s1 : IssueState W) (cert : RcgenCert) (csr : List Nat) (orderRes2 : CsrRes)
    (hno : (env.new_order st.world config.domains).1 = Except.ok orderRes)
    (hauth : authRoundsGo env config orderRes.authorizations [1, 2, 3, 4]
      { st with world := (env.new_order st.world config.domains).2 } =
      (Except.ok true, s1))
    (hmk : env.makeCert config.domains = Except.ok cert)
    (hreq : cert.requestDer = Except.ok csr)
    (hcsr : (env.send_csr s1.world orderRes.finalize csr).1 = Except.ok orderRes2)
    (hstatus : orderRes2.status = "valid")
    (hcert : orderRes2.certificate = none) :
    ∃ stF, issue_cert env config st =
        (Except.error "invalid resonse: missing `certificate` url", stF) ∧
      stF.cert = st.cert := by
  have hni : ¬(orderRes2.status = "invalid") := by rw [hstatus]; decide
  have hnv : ¬(orderRes2.status ≠ "valid") := by rw [hstatus]; decide
  have hs1 : s1.cert = st.cert := by
    have hc := authRoundsGo_cert env config orderRes.authorizations [1, 2, 3, 4]
      { st with world := (env.new_order st.world config.domains).2 }
    rw [hauth] at hc
    exact hc
  refine ⟨{ s1 with world := (env.send_csr s1.world orderRes.finalize csr).2 }, ?_, hs1⟩
  unfold issue_cert
  dsimp only
  rw [hno]
  dsimp only
  rw [hauth]
  dsimp only
  unfold finalizePhase
  dsimp only
  rw [hmk]
  dsimp only
  rw [hreq]
  dsimp only
  rw [hcsr]
  dsimp only
  rw [if_neg hni, if_neg hnv, hcert]
  rfl

/-- A client whose finalize response is `valid` but carries no certificate
URL. -/
def c10Env : AcmeEnv Unit :=
  { c2Env with send_csr := fun _ _ _ => (Except.ok ⟨"valid", none, none⟩, ()) }

/-- Closed instance of C10 at the `c10Env` run. -/
theorem c10_missing_certificate_url_is_error_witness :
    ∃ stF, issue_cert c10Env c2Cfg st0 =
        (Except.error "invalid resonse: missing `certificate` url", stF) ∧
      stF.cert = st0.cert :=
  c10_missing_certificate_url_is_error c10Env c2Cfg st0 ⟨["u1"], "fin"⟩ _
    ⟨[1], [2], Except.ok [3]⟩ [3] ⟨"valid", none, none⟩ rfl rfl rfl rfl rfl rfl rfl

/-- C8: a pending authorization processed with HTTP-01 configured (the
key-authorization map is present, as the HTTP-01 configuration provides
it): the key authorization `token ++ "." ++ thumbprint-b64url` is inserted
into the HTTP-01 map under the challenge token strictly before
`trigger_challenge` is called — the resulting trace is exactly
fetch, insert, trigger, in that order, and at the trigger the map already
binds the token to the key authorization. -/
theorem c8_http01_key_registered_before_trigger (env : AcmeEnv W)
    (config : AcmeConfig) (st : IssueState W) (u : String)
    (m : List (String × String)) (a : AcmeAuthorization) (ch : AcmeChallenge)
    (thumb : String)
    (hty : config.challenge_type = ChallengeType.http01)
    (hkeys : st.keysForHttp01 = some m)
    (hf : (env.fetch_authorization st.world u).1 = Except.ok a)
    (hst : a.status = "pending")
    (hfc : find_challenge a config.challenge_type = Except.ok ch)
    (hth : env.thumbprint64 = Except.ok thumb) :
    ((processAuth env config st u).2).trace = st.trace ++
      [Event.fetchAuth u,
       Event.insertHttp01 ch.token (ch.token ++ "." ++ thumb),
       Event.trigger a.identifierValue config.challenge_type ch.url] ∧
    ((processAuth env config st u).2).keysForHttp01 =
      some (mapInsert m ch.token (ch.token ++ "." ++ thumb)) ∧
    List.lookup ch.token (mapInsert m ch.token (ch.token ++ "." ++ thumb)) =
      some (ch.token ++ "." ++ thumb) := by
  have hv : ¬(a.status = "valid") := by rw [hst]; decide
  unfold processAuth
  dsimp only
  rw [hf]
  dsimp only
  rw [if_neg hv, if_pos hst, hfc]
  dsimp only
  unfold registerChallenge
  rw [hty]
  dsimp only
  rw [hkeys]
  unfold key_authorization
  rw [hth]
  dsimp only
  refine ⟨?_, ?_, ?_⟩
  · split <;> simp [List.append_assoc]
  · split <;> rfl
  · simp [List.lookup, mapInsert]

/-- C9: a pending authorization processed with HTTP-01 configured but no
`keys_for_http01` map (`None`): the key-authorization computation and the
map insert are skipped entirely, yet `trigger_challenge` is still called —
the CA is asked to probe a token that was never registered anywhere. -/
theorem c9_http01_without_key_map_still_triggers (env : AcmeEnv W)
    (config : AcmeConfig) (st : IssueState W) (u : String)
    (a : AcmeAuthorization) (ch : AcmeChallenge)
    (hty : config.challenge_type = ChallengeType.http01)
    (hkeys : st.keysForHttp01 = none)
    (hf : (env.fetch_authorization st.world u).1 = Except.ok a)
    (hst : a.status = "pending")
    (hfc : find_challenge a config.challenge_type = Except.ok ch) :
    ((processAuth env config st u).2).trace = st.trace ++
      [Event.fetchAuth u,
       Event.trigger a.identifierValue config.challenge_type ch.url] ∧
    ((processAuth env config st u).2).keysForHttp01 = none ∧
    (∀ t v, Event.insertHttp01 t v ∈ ((processAuth env config st u).2).trace →
      Event.insertHttp01 t v ∈ st.trace) := by
  have hv : ¬(a.status = "valid") := by rw [hst]; decide
  unfold processAuth
  dsimp only
  rw [hf]
  dsimp only
  rw [if_neg hv, if_pos hst, hfc]
  dsimp only
  unfold registerChallenge
  rw [hty]
  dsimp only
  rw [hkeys]
  dsimp only
  refine ⟨?_, ?_, ?_⟩
  · split <;> simp [List.append_assoc]
  · split <;> rfl
  · intro t v hm
    revert hm
    split <;> simp [List.append_assoc]

/-- A client with a pending HTTP-01 authorization for `a.com`, token
`tok1` (the claim's Scenario B). -/
def c8Env : AcmeEnv Unit :=
  { c1Env with
    fetch_authorization := fun _ _ =>
      (Except.ok ⟨"pending", "a.com", [⟨ChallengeType.http01, "tok1", "chal-url"⟩], none⟩, ()) }

/-- Scenario B configuration: domains `["a.com", "b.com"]`, HTTP-01. -/
def c8Cfg : AcmeConfig :=
  { domains := ["a.com", "b.com"], challenge_type := ChallengeType.http01,
    directory_name := "dir", cache_path := false }

/-- Scenario B initial state: an (empty) HTTP-01 key map is configured. -/
def c8St : IssueState Unit := { st0 with keysForHttp01 := some [] }

/-- Closed instance of C8: Scenario B — token `tok1` is bound to
`tok1.<thumbprint-b64url>` in the map, with the insert strictly before the
trigger in the recorded trace. -/
theorem c8_http01_key_registered_before_trigger_witness :
    ((processAuth c8Env c8Cfg c8St "u1").2).trace = c8St.trace ++
      [Event.fetchAuth "u1",
       Event.insertHttp01 "tok1" ("tok1" ++ "." ++ "THUMB"),
       Event.trigger "a.com" c8Cfg.challenge_type "chal-url"] ∧
    ((processAuth c8Env c8Cfg c8St "u1").2).keysForHttp01 =
      some (mapInsert [] "tok1" ("tok1" ++ "." ++ "THUMB")) ∧
    List.lookup "tok1" (mapInsert [] "tok1" ("tok1" ++ "." ++ "THUMB")) =
      some ("tok1" ++ "." ++ "THUMB") :=
  c8_http01_key_registered_before_trigger c8Env c8Cfg c8St "u1" []
    ⟨"pending", "a.com", [⟨ChallengeType.http01, "tok1", "chal-url"⟩], none⟩
    ⟨ChallengeType.http01, "tok1", "chal-url"⟩ "THUMB" rfl rfl rfl rfl rfl rfl

/-- Closed instance of C9: same pending HTTP-01 authorization but with no
key map configured — no insert event, yet the trigger still happens. -/
theorem c9_http01_without_key_map_still_triggers_witness :
    ((processAuth c8Env c8Cfg st0 "u1").2).trace = st0.trace ++
      [Event.fetchAuth "u1",
       Event.trigger "a.com" c8Cfg.challenge_type "chal-url"] ∧
    ((processAuth c8Env c8Cfg st0 "u1").2).keysForHttp01 = none ∧
    (∀ t v, Event.insertHttp01 t v ∈ ((processAuth c8Env c8Cfg st0 "u1").2).trace →
      Event.insertHttp01 t v ∈ st0.trace) :=
  c9_http01_without_key_map_still_triggers c8Env c8Cfg st0 "u1"
    ⟨"pending", "a.com", [⟨ChallengeType.http01, "tok1", "chal-url"⟩], none⟩
    ⟨ChallengeType.http01, "tok1", "chal-url"⟩ rfl rfl rfl rfl rfl
